import Mathlib

/-!
A verification development for the reverse-proxy core of keycloak-gatekeeper
(`reverse_proxy.go`).  The Go code is shallowly embedded: the straight-line
request-rewriting body of `proxyMiddleware` becomes a pipeline of pure
functions on a `Request` record, the catch-all provisioning of
`createReverseProxy` becomes a function from the configuration to the set of
installed routes, and the unix-socket normalisation of `createStdProxy`
becomes a function on a parsed upstream URL.  Helpers of the repository that
are not part of the embedded file (`realIP`, `filterCookies`,
`isUpgradedConnection`, the `allRoutes` / `allHTTPMethods` /
`unsecureScheme` / `requestURICookie` constants) are modelled from the
specification's words and are marked as such in their doc comments.

Go standard-library functions used by the embedded code (`strings.TrimPrefix`,
`path.Join` and its `path.Clean`, `net/http.Header` operations) are embedded
from their documented semantics: `path.Clean` is the documented algorithm
that drops empty and `.` segments, resolves `..` against the preceding
segment (dropping it at the root of a rooted path), and rejoins the segments
with single separators.
-/

/-! ## Go `path.Clean` / `path.Join` and `strings.TrimPrefix` -/

/-- Split a character list on the separator character, dropping empty pieces.
`cur` accumulates the (reversed) current segment.  This is the segmentation
step of `path.Clean`. -/
def segsAux : List Char → List Char → List (List Char)
  | [], cur => if cur = [] then [] else [cur.reverse]
  | c :: rest, cur =>
    if c = '/' then
      if cur = [] then segsAux rest [] else cur.reverse :: segsAux rest []
    else segsAux rest (c :: cur)

/-- Process the segments of a path against a stack, as `path.Clean` does:
`.` is dropped, `..` pops the previous segment (at the root of a rooted path
it is dropped, at the front of a relative path it is kept), anything else is
pushed.  The stack is returned innermost-first (reversed). -/
def procSegs (rooted : Bool) : List (List Char) → List (List Char) → List (List Char)
  | stack, [] => stack
  | stack, seg :: rest =>
    if seg = ['.'] then procSegs rooted stack rest
    else if seg = ['.', '.'] then
      match stack with
      | [] => if rooted then procSegs rooted [] rest else procSegs rooted [seg] rest
      | top :: stk =>
        if top = ['.', '.'] then procSegs rooted (seg :: top :: stk) rest
        else procSegs rooted stk rest
    else procSegs rooted (seg :: stack) rest

/-- Join segments with single `/` separators (Go `strings.Join` with `"/"`). -/
def joinSegs : List (List Char) → List Char
  | [] => []
  | [s] => s
  | s :: t :: rest => s ++ '/' :: joinSegs (t :: rest)

/-- Does the character list start with the path separator? -/
def isRooted : List Char → Bool
  | '/' :: _ => true
  | _ => false

/-- `true` when the character list contains no two adjacent `/` characters. -/
def noDupSlash : List Char → Bool
  | [] => true
  | [_] => true
  | a :: b :: rest => if a = '/' ∧ b = '/' then false else noDupSlash (b :: rest)

/-- Go `path.Clean`, by its documented algorithm: iteratively replace
multiple slashes by one, drop `.` elements, resolve `..` elements against
the preceding element, and drop `..` elements at the root of a rooted path;
the empty result is `"."` (or `"/"` for a rooted path). -/
def pathClean (s : String) : String :=
  if s.data = [] then "." else
  let rooted := isRooted s.data
  let stack := (procSegs rooted [] (segsAux s.data [])).reverse
  let body := joinSegs stack
  if rooted then
    if body = [] then "/" else String.mk ('/' :: body)
  else
    if body = [] then "." else String.mk body

/-- Go `path.Join` restricted to two elements: empty elements are skipped,
the remaining ones are joined with `/` and the result is `path.Clean`ed;
the result is `""` when both elements are empty. -/
def pathJoin (a b : String) : String :=
  if a.data = [] ∧ b.data = [] then ""
  else if a.data = [] then pathClean b
  else pathClean (a ++ "/" ++ b)

/-- Go `strings.TrimPrefix`: remove `p` from the front of `s` when `s`
starts with `p`, otherwise return `s` unchanged. -/
def trimPrefix (s p : String) : String :=
  if p.data.isPrefixOf s.data then String.mk (s.data.drop p.data.length) else s

/-- Go `strings.Contains`: does `sub` occur as a contiguous substring? -/
def containsSub (sub : List Char) : List Char → Bool
  | [] => sub.isEmpty
  | c :: rest => sub.isPrefixOf (c :: rest) || containsSub sub rest

example : pathClean "/apitls//foo" = "/apitls/foo" := by decide
example : pathClean "" = "." := by decide
example : pathClean "/a/b/../c/" = "/a/c" := by decide
example : pathClean "/.." = "/" := by decide
example : pathClean "a/../.." = ".." := by decide
example : pathJoin "/apitls" "/foo" = "/apitls/foo" := by decide
example : pathJoin "/base/" "//x" = "/base/x" := by decide
example : trimPrefix "/fake/foo" "/fake" = "/foo" := by decide
example : trimPrefix "/other" "/fake" = "/other" := by decide

/-! ## Go `net/http` header maps

`http.Header` is a map from a header name to the list of its values.  It is
modelled as an association list with the map operations `Get`, `Set`, `Add`
and `Del`.  The embedded code only handles canonical header names, so key
canonicalisation is the identity here. -/

/-- `http.Header`: header names mapped to their list of values. -/
abbrev HeaderMap := List (String × List String)

/-- `Header.Del`: remove every binding of the name. -/
def hDel (h : HeaderMap) (k : String) : HeaderMap :=
  h.filter (fun e => e.1 ≠ k)

/-- `Header.Set`: replace the bindings of the name by the single value. -/
def hSet (h : HeaderMap) (k v : String) : HeaderMap :=
  (k, [v]) :: hDel h k

/-- `Header.Add`: append the value to the bindings of the name. -/
def hAdd (h : HeaderMap) (k v : String) : HeaderMap :=
  match h.lookup k with
  | some vs => (k, vs ++ [v]) :: hDel h k
  | none => (k, [v]) :: h

/-- `Header.Get`: the first value of the name, or `""`. -/
def hGet (h : HeaderMap) (k : String) : String :=
  match h.lookup k with
  | some (v :: _) => v
  | _ => ""

/-- All values recorded for a name. -/
def hValues (h : HeaderMap) (k : String) : List String :=
  (h.lookup k).getD []

/-! ## Data model

`Resource`, `RequestScope` and the configuration fields used by
`createReverseProxy` / `proxyMiddleware`. -/

/-- Modelled from the spec: a `Resource` routing rule carries a URL pattern,
the allowed HTTP methods, the `WhiteListed` flag, an optional per-resource
upstream URL override, an optional `StripBasePath` prefix and the
`EnableCSRF` flag (the defining file `resource.go` is not under `src/`; the
role / claim attributes are enforced by the admission middleware and play no
part in the embedded code). -/
structure Resource where
  url : String
  methods : List String
  whiteListed : Bool
  upstream : String
  stripBasePath : String
  enableCSRF : Bool
deriving DecidableEq, Repr

/-- The per-request scope threaded through the request context; only its
`AccessDenied` flag is read by `proxyMiddleware`. -/
structure RequestScope where
  accessDenied : Bool
deriving DecidableEq, Repr

/-- An inbound HTTP request, restricted to the attributes touched by
`proxyMiddleware`: the header map, the `Host`, the request URL
(scheme / host / path), the remote address and direct peer address, the
cookies (the request's `Cookie` header, parsed), and the context value
holding the `RequestScope` (absent when no middleware created one). -/
structure Request where
  header : HeaderMap
  host : String
  urlScheme : String
  urlHost : String
  urlPath : String
  remoteAddr : String
  peerAddr : String
  cookies : List (String × String)
  scope : Option RequestScope
deriving DecidableEq, Repr

/-- The configuration fields of `oauthProxy.config` read by the embedded
code. -/
structure Config where
  enableDefaultDeny : Bool
  enableDefaultNotFound : Bool
  enableCSRF : Bool
  enableAuthorizationCookies : Bool
  preserveHost : Bool
  csrfHeader : String
  csrfCookieName : String
  corsOrigins : List String
  headers : List (String × String)
  resources : List Resource
deriving DecidableEq, Repr

/-- The four closure variables captured by `proxyMiddleware` (lines
192-208): the effective upstream host, scheme and base path (from the
resource's upstream override or the default endpoint) and the resource's
`StripBasePath`. -/
structure ProxyParams where
  upstreamHost : String
  upstreamScheme : String
  upstreamBasePath : String
  stripBasePath : String
deriving DecidableEq, Repr

/-- A parsed upstream URL (`net/url.URL` restricted to the fields touched
by `createStdProxy`). -/
structure UrlParts where
  scheme : String
  host : String
  path : String
deriving DecidableEq, Repr

/-! ## Repository helpers that are not under `src/` -/

/-- Modelled from the spec: the name of the request-URI cookie (`request_uri`
carries the original request URL across the OIDC round-trip); the constant's
defining file is not under `src/`. -/
def requestURICookie : String := "request_uri"

/-- Modelled from the spec: the literal pattern `"/*"` denotes the
catch-all route (`allRoutes`; the constant's defining file is not under
`src/`). -/
def allRoutes : String := "/*"

/-- Modelled from the spec: the full HTTP method set (`allHTTPMethods`; the
constant's defining file is not under `src/`). -/
def allHTTPMethods : List String :=
  ["DELETE", "GET", "HEAD", "OPTIONS", "PATCH", "POST", "PUT", "TRACE"]

/-- Modelled from the spec: the insecure (`http`) scheme
(`unsecureScheme`; the constant's defining file is not under `src/`). -/
def unsecureScheme : String := "http"

/-- Modelled from the spec: `realIP` extracts the inbound client IP, taking
the `X-Forwarded-For` header with precedence, else the remote address
recorded on the request, else the direct peer address (the helper's
defining file is not under `src/`). -/
def realIP (req : Request) : String :=
  if hGet req.header "X-Forwarded-For" ≠ "" then hGet req.header "X-Forwarded-For"
  else if req.remoteAddr ≠ "" then req.remoteAddr
  else req.peerAddr

/-- Modelled from the spec: a request is an upgraded connection when its
`Connection` header contains `upgrade` and an `Upgrade` header is present
(the helper's defining file is not under `src/`). -/
def isUpgradedConnection (req : Request) : Bool :=
  containsSub "upgrade".data (hGet req.header "Connection").data
    && hGet req.header "Upgrade" ≠ ""

/-- Modelled from the spec: `filterCookies` strips the named proxy-owned
cookies from the request before forwarding (the helper's defining file is
not under `src/`). -/
def filterCookies (names : List String) (req : Request) : Request :=
  { req with cookies := req.cookies.filter (fun c => ¬ names.contains c.1) }

/-! ## The rewriting pipeline of `proxyMiddleware` (lines 211-284)

The straight-line body that runs once the scope allows forwarding is split
into one function per `@step` block, composed in source order. -/

/-- Lines 223-230: append the client IP to `X-Forwarded-For`, set
`X-Forwarded-Host` from the inbound `Host`, and set `X-Forwarded-Proto`
from its inbound value, else from the upstream scheme. -/
def addForwardingHeaders (pm : ProxyParams) (req : Request) : Request :=
  let h1 := hAdd req.header "X-Forwarded-For" (realIP req)
  let h2 := hSet h1 "X-Forwarded-Host" req.host
  let h3 :=
    if hGet h2 "X-Forwarded-Proto" ≠ "" then
      hSet h2 "X-Forwarded-Proto" (hGet h2 "X-Forwarded-Proto")
    else
      hSet h2 "X-Forwarded-Proto" pm.upstreamScheme
  { req with header := h3 }

/-- Lines 232-235: when CORS is handled by the gatekeeper, do not propagate
the `Origin` header upstream. -/
def applyCorsStrip (cfg : Config) (req : Request) : Request :=
  if cfg.corsOrigins.length > 0 then { req with header := hDel req.header "Origin" }
  else req

/-- Lines 237-240: apply the operator-configured custom headers
(`Header.Set`, overwrite semantics). -/
def applyCustomHeaders (cfg : Config) (req : Request) : Request :=
  { req with header := cfg.headers.foldl (fun h kv => hSet h kv.1 kv.2) req.header }

/-- Lines 242-250: when CSRF is enabled delete the CSRF header and, unless
authorization cookies are passed through, strip the CSRF and request-URI
cookies; when CSRF is disabled strip only the request-URI cookie (again
unless authorization cookies are passed through). -/
def applyCsrfStrip (cfg : Config) (req : Request) : Request :=
  if cfg.enableCSRF then
    let r1 := { req with header := hDel req.header cfg.csrfHeader }
    if ¬ cfg.enableAuthorizationCookies then
      filterCookies [requestURICookie, cfg.csrfCookieName] r1
    else r1
  else if ¬ cfg.enableAuthorizationCookies then
    filterCookies [requestURICookie] req
  else req

/-- Lines 252-262: point the request URL at the upstream host and scheme,
strip the resource's base path prefix if any, and join the upstream URL's
base path onto the result if any. -/
def rewriteURL (pm : ProxyParams) (req : Request) : Request :=
  let p1 := req.urlPath
  let p2 := if pm.stripBasePath ≠ "" then trimPrefix p1 pm.stripBasePath else p1
  let p3 := if pm.upstreamBasePath ≠ "" then pathJoin pm.upstreamBasePath p2 else p2
  { req with urlHost := pm.upstreamHost, urlScheme := pm.upstreamScheme, urlPath := p3 }

/-- Lines 264-270: choose the outbound `Host`: an explicit `Host` header
wins (and is removed from the map); else the upstream host unless
`PreserveHost` is set, in which case the inbound `Host` is kept. -/
def setOutboundHost (preserveHost : Bool) (upstreamHost : String) (req : Request) : Request :=
  let v := hGet req.header "Host"
  if v ≠ "" then { req with host := v, header := hDel req.header "Host" }
  else if ¬ preserveHost then { req with host := upstreamHost }
  else req

/-- The rewriting pipeline up to (excluding) the outbound-`Host` selection:
the header map this intermediate request carries is the one
`proxyMiddleware` consults at line 265. -/
def preHostRewrite (cfg : Config) (pm : ProxyParams) (req : Request) : Request :=
  rewriteURL pm (applyCsrfStrip cfg (applyCustomHeaders cfg (applyCorsStrip cfg
    (addForwardingHeaders pm req))))

/-- The full request rewriting performed by `proxyMiddleware` before it
hands the request to the upgrade path or the pooled upstream client. -/
def rewriteRequest (cfg : Config) (pm : ProxyParams) (req : Request) : Request :=
  setOutboundHost cfg.preserveHost pm.upstreamHost (preHostRewrite cfg pm req)

/-- The observable outcome of one `proxyMiddleware` invocation:
`denied` returns without rewriting (the carried request is the untouched
inbound one); `upgraded` hands the rewritten request to the
connection-upgrade tunnel; `errorResp` writes an error status (the upgrade
failure path writes 500); `forwarded` hands the rewritten request to the
pooled upstream client `r.upstream.ServeHTTP`. -/
inductive ProxyResult where
  | denied (req : Request)
  | upgraded (req : Request)
  | errorResp (status : Nat) (req : Request)
  | forwarded (req : Request)
deriving DecidableEq, Repr

/-- Did the outcome invoke the pooled upstream client? -/
def invokesUpstream : ProxyResult → Bool
  | ProxyResult.forwarded _ => true
  | _ => false

/-- Lines 271-282 with the rewriting applied: upgraded connections go to
`tryUpdateConnection` (its network success is the oracle `upgradeOk`; on
failure the middleware responds 500 `failed to upgrade connection`), all
other requests go to the pooled upstream client. -/
def forwardPhase (cfg : Config) (pm : ProxyParams) (upgradeOk : Bool) (req : Request) :
    ProxyResult :=
  let r := rewriteRequest cfg pm req
  if isUpgradedConnection r then
    if upgradeOk then ProxyResult.upgraded r else ProxyResult.errorResp 500 r
  else ProxyResult.forwarded r

/-- The handler returned by `proxyMiddleware` (lines 211-284), after the
inner chain has run: re-read the scope from the request context and return
without rewriting when it is present and marked `AccessDenied`; otherwise
rewrite and forward. -/
def proxyHandler (cfg : Config) (pm : ProxyParams) (upgradeOk : Bool) (req : Request) :
    ProxyResult :=
  match req.scope with
  | some sc => if sc.accessDenied then ProxyResult.denied req else forwardPhase cfg pm upgradeOk req
  | none => forwardPhase cfg pm upgradeOk req

/-- Is the request free of an `AccessDenied` scope (no scope at all, or a
scope with `AccessDenied=false`)? -/
def notDenied (req : Request) : Bool :=
  match req.scope with
  | some sc => !sc.accessDenied
  | none => true

/-! ## The router provisioning of `createReverseProxy` (lines 103-169) -/

/-- The middlewares a resource's chain can mention, named as in the
source. -/
inductive Middleware where
  | proxy
  | authentication
  | admission
  | identityHeaders
  | csrfSkipResource
  | csrfProtect
  | csrfHeader
deriving DecidableEq, Repr

/-- Lines 146-168: the middleware chain composed for a resource, outermost
first. -/
def chainFor (x : Resource) : List Middleware :=
  if ¬ x.whiteListed then
    [Middleware.proxy, Middleware.authentication, Middleware.admission,
     Middleware.identityHeaders, Middleware.csrfSkipResource,
     Middleware.csrfProtect, Middleware.csrfHeader]
  else
    [Middleware.proxy]

/-- The catch-all handlers `createReverseProxy` can install at `"/*"`
besides the protected resources: the authenticated 404 handler (line
120-121), the plain 404 handler (line 138), and the unauthenticated
pass-through proxy (line 142, `proxyMiddleware(nil)` over `emptyHandler`). -/
inductive CatchAllInstall where
  | authNotFound
  | plainNotFound
  | openProxy
deriving DecidableEq, Repr

/-- The routing outcome of the provisioning step: the extra catch-all
handler installed, if any, and the final resource list (each of whose
members is registered with the chain `chainFor`). -/
structure RouterSetup where
  catchAll : Option CatchAllInstall
  resources : List Resource
deriving DecidableEq, Repr

/-- The synthetic default-deny resource appended at line 124
(`&Resource{URL: allRoutes, Methods: allHTTPMethods}`; the remaining
fields keep their zero values). -/
def defaultDenyResource : Resource :=
  { url := allRoutes, methods := allHTTPMethods, whiteListed := false,
    upstream := "", stripBasePath := "", enableCSRF := false }

/-- Lines 103-114: `addDefaultDeny` starts as `EnableDefaultDeny` and is
cleared by any declared `"/*"` resource when `EnableDefaultDeny` is set. -/
def computeAddDefaultDeny (cfg : Config) : Bool :=
  cfg.resources.foldl
    (fun b x => if x.url = allRoutes ∧ cfg.enableDefaultDeny then false else b)
    cfg.enableDefaultDeny

/-- Lines 116-144: the catch-all decision of `createReverseProxy`, plus the
resource list the subsequent loop (lines 146-169) registers. -/
def provisionRoutes (cfg : Config) : RouterSetup :=
  if computeAddDefaultDeny cfg then
    if cfg.enableDefaultNotFound then
      { catchAll := some CatchAllInstall.authNotFound, resources := cfg.resources }
    else
      { catchAll := none, resources := cfg.resources ++ [defaultDenyResource] }
  else
    if cfg.enableDefaultNotFound then
      if cfg.resources.any (fun x => x.url = allRoutes) then
        { catchAll := none, resources := cfg.resources }
      else
        { catchAll := some CatchAllInstall.plainNotFound, resources := cfg.resources }
    else
      { catchAll := some CatchAllInstall.openProxy, resources := cfg.resources }

/-! ## The proxy factory `createStdProxy` (lines 290-330) -/

/-- The dialer installed on the upstream transport: the standard TCP
dialer, or a Unix-domain-socket dialer bound to a socket path. -/
inductive Dialer where
  | standard
  | unixSocket (socketPath : String)
deriving DecidableEq, Repr

/-- The upstream client state `createStdProxy` produces: the dialer and the
(possibly normalised) upstream endpoint URL. -/
structure UpstreamClient where
  dialer : Dialer
  endpoint : UrlParts
deriving DecidableEq, Repr

/-- Lines 296-307: for a `unix` upstream, bind a Unix-socket dialer to the
concatenation `host+path` of the URL, then normalise the URL in place:
empty path, host `domain-sock`, insecure scheme. -/
def createStdProxy (upstream : UrlParts) : UpstreamClient :=
  if upstream.scheme = "unix" then
    { dialer := Dialer.unixSocket (upstream.host ++ upstream.path),
      endpoint := { upstream with path := "", host := "domain-sock", scheme := unsecureScheme } }
  else
    { dialer := Dialer.standard, endpoint := upstream }

/-! ## Lemmas about the header-map operations -/

theorem lookup_cons_self (a : String) (b : List String) (t : HeaderMap) :
    List.lookup a ((a, b) :: t) = some b := by
  simp [List.lookup]

theorem lookup_cons_ne (a : String) (b : List String) (t : HeaderMap) (k : String)
    (h : k ≠ a) : List.lookup k ((a, b) :: t) = List.lookup k t := by
  have hb : (k == a) = false := by simpa using h
  simp [List.lookup, hb]

theorem hDel_cons (a : String) (b : List String) (t : HeaderMap) (k : String) :
    hDel ((a, b) :: t) k = if a = k then hDel t k else (a, b) :: hDel t k := by
  by_cases h : a = k <;> simp [hDel, List.filter_cons, h]

theorem lookup_hDel_ne (h : HeaderMap) (k k' : String) (hne : k' ≠ k) :
    (hDel h k).lookup k' = h.lookup k' := by
  induction h with
  | nil => rfl
  | cons e t ih =>
    obtain ⟨a, b⟩ := e
    rw [hDel_cons]
    by_cases he : a = k
    · have hka : k' ≠ a := fun hc => hne (hc.trans he)
      rw [if_pos he, ih, lookup_cons_ne a b t k' hka]
    · rw [if_neg he]
      by_cases hk : k' = a
      · subst hk
        rw [lookup_cons_self, lookup_cons_self]
      · rw [lookup_cons_ne a b _ k' hk, lookup_cons_ne a b t k' hk, ih]

theorem lookup_hDel_self (h : HeaderMap) (k : String) :
    (hDel h k).lookup k = none := by
  induction h with
  | nil => rfl
  | cons e t ih =>
    obtain ⟨a, b⟩ := e
    rw [hDel_cons]
    by_cases he : a = k
    · rw [if_pos he]
      exact ih
    · have hk : k ≠ a := fun hc => he hc.symm
      rw [if_neg he, lookup_cons_ne a b _ k hk]
      exact ih

theorem hValues_hDel_ne (h : HeaderMap) (k k' : String) (hne : k' ≠ k) :
    hValues (hDel h k) k' = hValues h k' := by
  simp [hValues, lookup_hDel_ne h k k' hne]

theorem hValues_hDel_self (h : HeaderMap) (k : String) :
    hValues (hDel h k) k = [] := by
  simp [hValues, lookup_hDel_self]

theorem hValues_hSet_self (h : HeaderMap) (k v : String) :
    hValues (hSet h k v) k = [v] := by
  simp [hValues, hSet, lookup_cons_self]

theorem hValues_hSet_ne (h : HeaderMap) (k k' v : String) (hne : k' ≠ k) :
    hValues (hSet h k v) k' = hValues h k' := by
  simp [hValues, hSet, lookup_cons_ne k [v] _ k' hne, lookup_hDel_ne h k k' hne]

theorem hValues_hAdd_self (h : HeaderMap) (k v : String) :
    hValues (hAdd h k v) k = hValues h k ++ [v] := by
  unfold hAdd
  cases hl : h.lookup k with
  | none => simp [hValues, lookup_cons_self, hl]
  | some vs => simp [hValues, lookup_cons_self, hl]

theorem hValues_hAdd_ne (h : HeaderMap) (k k' v : String) (hne : k' ≠ k) :
    hValues (hAdd h k v) k' = hValues h k' := by
  unfold hAdd
  cases hl : h.lookup k with
  | none => simp [hValues, lookup_cons_ne k [v] _ k' hne]
  | some vs =>
    simp [hValues, lookup_cons_ne k (vs ++ [v]) _ k' hne, lookup_hDel_ne h k k' hne]

theorem hGet_eq_headD (h : HeaderMap) (k : String) :
    hGet h k = (hValues h k).headD "" := by
  unfold hGet hValues
  cases h.lookup k with
  | none => rfl
  | some vs => cases vs <;> rfl

theorem hValues_foldl_hSet (l : List (String × String)) (h : HeaderMap) (k : String)
    (hk : k ∉ l.map Prod.fst) :
    hValues (l.foldl (fun acc kv => hSet acc kv.1 kv.2) h) k = hValues h k := by
  induction l generalizing h with
  | nil => rfl
  | cons kv t ih =>
    simp only [List.map_cons, List.mem_cons, not_or] at hk
    simp only [List.foldl_cons]
    rw [ih (hSet h kv.1 kv.2) hk.2, hValues_hSet_ne h kv.1 k kv.2 hk.1]

/-! ## Effects of the individual rewriting steps -/

theorem addForwardingHeaders_xff (pm : ProxyParams) (req : Request) :
    hValues (addForwardingHeaders pm req).header "X-Forwarded-For"
      = hValues req.header "X-Forwarded-For" ++ [realIP req] := by
  unfold addForwardingHeaders
  dsimp only []
  split <;>
    rw [hValues_hSet_ne _ _ _ _ (by decide), hValues_hSet_ne _ _ _ _ (by decide),
      hValues_hAdd_self]

theorem addForwardingHeaders_xfh (pm : ProxyParams) (req : Request) :
    hValues (addForwardingHeaders pm req).header "X-Forwarded-Host" = [req.host] := by
  unfold addForwardingHeaders
  dsimp only []
  split <;>
    rw [hValues_hSet_ne _ _ _ _ (by decide), hValues_hSet_self]

theorem addForwardingHeaders_xfp (pm : ProxyParams) (req : Request) :
    hValues (addForwardingHeaders pm req).header "X-Forwarded-Proto"
      = (if hGet req.header "X-Forwarded-Proto" ≠ ""
         then [hGet req.header "X-Forwarded-Proto"] else [pm.upstreamScheme]) := by
  have hpe : hGet (hSet (hAdd req.header "X-Forwarded-For" (realIP req))
      "X-Forwarded-Host" req.host) "X-Forwarded-Proto"
        = hGet req.header "X-Forwarded-Proto" := by
    rw [hGet_eq_headD, hGet_eq_headD,
      hValues_hSet_ne _ _ _ _ (by decide), hValues_hAdd_ne _ _ _ _ (by decide)]
  unfold addForwardingHeaders
  dsimp only []
  rw [← hpe]
  split
  · exact hValues_hSet_self _ _ _
  · exact hValues_hSet_self _ _ _

theorem addForwardingHeaders_other (pm : ProxyParams) (req : Request) (k : String)
    (h1 : k ≠ "X-Forwarded-For") (h2 : k ≠ "X-Forwarded-Host")
    (h3 : k ≠ "X-Forwarded-Proto") :
    hValues (addForwardingHeaders pm req).header k = hValues req.header k := by
  unfold addForwardingHeaders
  dsimp only []
  split <;>
    rw [hValues_hSet_ne _ _ _ _ h3, hValues_hSet_ne _ _ _ _ h2, hValues_hAdd_ne _ _ _ _ h1]

theorem applyCorsStrip_other (cfg : Config) (req : Request) (k : String)
    (h : k ≠ "Origin") :
    hValues (applyCorsStrip cfg req).header k = hValues req.header k := by
  unfold applyCorsStrip
  split
  · exact hValues_hDel_ne _ _ _ h
  · rfl

theorem applyCustomHeaders_other (cfg : Config) (req : Request) (k : String)
    (h : k ∉ cfg.headers.map Prod.fst) :
    hValues (applyCustomHeaders cfg req).header k = hValues req.header k :=
  hValues_foldl_hSet cfg.headers req.header k h

theorem filterCookies_header (names : List String) (req : Request) :
    (filterCookies names req).header = req.header := rfl

theorem applyCsrfStrip_other (cfg : Config) (req : Request) (k : String)
    (h : k ≠ cfg.csrfHeader) :
    hValues (applyCsrfStrip cfg req).header k = hValues req.header k := by
  unfold applyCsrfStrip
  dsimp only []
  split
  · split
    · rw [filterCookies_header]
      exact hValues_hDel_ne _ _ _ h
    · exact hValues_hDel_ne _ _ _ h
  · split
    · rw [filterCookies_header]
    · rfl

theorem applyCsrfStrip_csrfHeader (cfg : Config) (req : Request)
    (hc : cfg.enableCSRF = true) :
    hValues (applyCsrfStrip cfg req).header cfg.csrfHeader = [] := by
  unfold applyCsrfStrip
  dsimp only []
  rw [if_pos hc]
  split
  · rw [filterCookies_header]
    exact hValues_hDel_self _ _
  · exact hValues_hDel_self _ _

theorem rewriteURL_header (pm : ProxyParams) (req : Request) :
    (rewriteURL pm req).header = req.header := rfl

theorem setOutboundHost_other (p : Bool) (u : String) (req : Request) (k : String)
    (h : k ≠ "Host") :
    hValues (setOutboundHost p u req).header k = hValues req.header k := by
  unfold setOutboundHost
  dsimp only []
  split
  · exact hValues_hDel_ne _ _ _ h
  · split
    · rfl
    · rfl

theorem setOutboundHost_keeps_empty (p : Bool) (u : String) (req : Request) (k : String)
    (h : hValues req.header k = []) :
    hValues (setOutboundHost p u req).header k = [] := by
  by_cases hk : k = "Host"
  · subst hk
    unfold setOutboundHost
    dsimp only []
    split
    · exact hValues_hDel_self _ _
    · split
      · exact h
      · exact h
  · rw [setOutboundHost_other p u req k hk]
    exact h

/-! ## Which request fields each step leaves unchanged -/

theorem addForwardingHeaders_host (pm : ProxyParams) (req : Request) :
    (addForwardingHeaders pm req).host = req.host := rfl

theorem addForwardingHeaders_urlPath (pm : ProxyParams) (req : Request) :
    (addForwardingHeaders pm req).urlPath = req.urlPath := rfl

theorem addForwardingHeaders_cookies (pm : ProxyParams) (req : Request) :
    (addForwardingHeaders pm req).cookies = req.cookies := rfl

theorem applyCorsStrip_host (cfg : Config) (req : Request) :
    (applyCorsStrip cfg req).host = req.host := by
  unfold applyCorsStrip
  split <;> rfl

theorem applyCorsStrip_urlPath (cfg : Config) (req : Request) :
    (applyCorsStrip cfg req).urlPath = req.urlPath := by
  unfold applyCorsStrip
  split <;> rfl

theorem applyCorsStrip_cookies (cfg : Config) (req : Request) :
    (applyCorsStrip cfg req).cookies = req.cookies := by
  unfold applyCorsStrip
  split <;> rfl

theorem applyCustomHeaders_host (cfg : Config) (req : Request) :
    (applyCustomHeaders cfg req).host = req.host := rfl

theorem applyCustomHeaders_urlPath (cfg : Config) (req : Request) :
    (applyCustomHeaders cfg req).urlPath = req.urlPath := rfl

theorem applyCustomHeaders_cookies (cfg : Config) (req : Request) :
    (applyCustomHeaders cfg req).cookies = req.cookies := rfl

theorem applyCsrfStrip_host (cfg : Config) (req : Request) :
    (applyCsrfStrip cfg req).host = req.host := by
  unfold applyCsrfStrip filterCookies
  dsimp only []
  split <;> first | rfl | (split <;> rfl)

theorem applyCsrfStrip_urlPath (cfg : Config) (req : Request) :
    (applyCsrfStrip cfg req).urlPath = req.urlPath := by
  unfold applyCsrfStrip filterCookies
  dsimp only []
  split <;> first | rfl | (split <;> rfl)

theorem rewriteURL_host (pm : ProxyParams) (req : Request) :
    (rewriteURL pm req).host = req.host := rfl

theorem rewriteURL_cookies (pm : ProxyParams) (req : Request) :
    (rewriteURL pm req).cookies = req.cookies := rfl

theorem setOutboundHost_urlPath (p : Bool) (u : String) (req : Request) :
    (setOutboundHost p u req).urlPath = req.urlPath := by
  unfold setOutboundHost
  dsimp only []
  split <;> first | rfl | (split <;> rfl)

theorem setOutboundHost_cookies (p : Bool) (u : String) (req : Request) :
    (setOutboundHost p u req).cookies = req.cookies := by
  unfold setOutboundHost
  dsimp only []
  split <;> first | rfl | (split <;> rfl)

theorem preHostRewrite_host (cfg : Config) (pm : ProxyParams) (req : Request) :
    (preHostRewrite cfg pm req).host = req.host := by
  unfold preHostRewrite
  rw [rewriteURL_host, applyCsrfStrip_host, applyCustomHeaders_host, applyCorsStrip_host,
    addForwardingHeaders_host]

/-- The proxy-owned cookies are gone from the forwarded request: with CSRF
enabled and authorization-cookie pass-through disabled, every cookie that
survives `applyCsrfStrip` was an inbound cookie whose name is neither the
request-URI cookie nor the CSRF cookie. -/
theorem applyCsrfStrip_cookies_mem (cfg : Config) (req : Request)
    (hc : cfg.enableCSRF = true) (ha : cfg.enableAuthorizationCookies = false) :
    ∀ c ∈ (applyCsrfStrip cfg req).cookies,
      c ∈ req.cookies ∧ c.1 ≠ requestURICookie ∧ c.1 ≠ cfg.csrfCookieName := by
  unfold applyCsrfStrip filterCookies
  rw [if_pos hc, if_pos (by rw [ha]; exact Bool.false_ne_true)]
  intro c hcmem
  simp only [List.mem_filter, decide_not] at hcmem
  obtain ⟨hmem, hname⟩ := hcmem
  simp only [Bool.not_eq_true', decide_eq_false_iff_not, List.contains_cons,
    List.contains_nil, Bool.or_false, Bool.or_eq_true, beq_iff_eq, not_or] at hname
  exact ⟨hmem, hname.1, hname.2⟩

/-! ## `path.Clean` produces no duplicate separators -/

/-- A well-formed path segment: nonempty and free of the separator. -/
def goodSeg (s : List Char) : Prop := s ≠ [] ∧ ∀ a ∈ s, a ≠ '/'

theorem goodSeg_dotdot : goodSeg ['.', '.'] := by
  constructor
  · simp
  · intro a ha
    simp only [List.mem_cons, List.not_mem_nil, or_false] at ha
    rcases ha with h | h <;> simp [h]

theorem segsAux_good (l : List Char) : ∀ cur, (∀ a ∈ cur, a ≠ '/') →
    ∀ s ∈ segsAux l cur, goodSeg s := by
  induction l with
  | nil =>
    intro cur hcur s hs
    unfold segsAux at hs
    split at hs
    · simp at hs
    · simp only [List.mem_singleton] at hs
      subst hs
      refine ⟨by simpa using ‹¬cur = []›, ?_⟩
      intro a ha
      exact hcur a (List.mem_reverse.mp ha)
  | cons c rest ih =>
    intro cur hcur s hs
    unfold segsAux at hs
    split at hs
    · split at hs
      · exact ih [] (by simp) s hs
      · rcases List.mem_cons.mp hs with h | h
        · subst h
          refine ⟨by simpa using ‹¬cur = []›, ?_⟩
          intro a ha
          exact hcur a (List.mem_reverse.mp ha)
        · exact ih [] (by simp) s h
    · refine ih (c :: cur) ?_ s hs
      intro a ha
      rcases List.mem_cons.mp ha with h | h
      · subst h
        assumption
      · exact hcur a h

theorem procSegs_good (rooted : Bool) (segs : List (List Char)) :
    ∀ stack, (∀ s ∈ stack, goodSeg s) → (∀ s ∈ segs, goodSeg s) →
      ∀ s ∈ procSegs rooted stack segs, goodSeg s := by
  induction segs with
  | nil =>
    intro stack hstack _ s hs
    exact hstack s hs
  | cons seg rest ih =>
    intro stack hstack hsegs s hs
    have hseg : goodSeg seg := hsegs seg (List.mem_cons_self seg rest)
    have hrest : ∀ t ∈ rest, goodSeg t := fun t ht => hsegs t (List.mem_cons_of_mem seg ht)
    unfold procSegs at hs
    split at hs
    · exact ih stack hstack hrest s hs
    · split at hs
      · rename_i hdd
        split at hs
        · split at hs
          · exact ih [] (by simp) hrest s hs
          · refine ih [seg] ?_ hrest s hs
            intro t ht
            simp only [List.mem_singleton] at ht
            subst ht
            exact hseg
        · split at hs
          · refine ih _ ?_ hrest s hs
            intro t ht
            rcases List.mem_cons.mp ht with h | h
            · subst h
              exact hseg
            · exact hstack t h
          · refine ih _ ?_ hrest s hs
            intro t ht
            exact hstack t (List.mem_cons_of_mem _ ht)
      · refine ih (seg :: stack) ?_ hrest s hs
        intro t ht
        rcases List.mem_cons.mp ht with h | h
        · subst h
          exact hseg
        · exact hstack t h

theorem noDupSlash_cons (a : Char) (l : List Char) (h : noDupSlash l = true)
    (ha : a ≠ '/' ∨ ∀ c cs, l = c :: cs → c ≠ '/') :
    noDupSlash (a :: l) = true := by
  cases l with
  | nil => rfl
  | cons c cs =>
    have hnot : ¬ (a = '/' ∧ c = '/') := by
      rcases ha with h1 | h1
      · exact fun hc => h1 hc.1
      · exact fun hc => (h1 c cs rfl) hc.2
    unfold noDupSlash
    rw [if_neg hnot]
    exact h

theorem noDupSlash_of_noslash (l : List Char) (h : ∀ a ∈ l, a ≠ '/') :
    noDupSlash l = true := by
  induction l with
  | nil => rfl
  | cons a t ih =>
    refine noDupSlash_cons a t (ih (fun b hb => h b (List.mem_cons_of_mem a hb))) ?_
    exact Or.inl (h a (List.mem_cons_self a t))

theorem joinSegs_head_ne (segs : List (List Char)) (hgood : ∀ s ∈ segs, goodSeg s) :
    ∀ c cs, joinSegs segs = c :: cs → c ≠ '/' := by
  cases segs with
  | nil =>
    intro c cs h
    simp [joinSegs] at h
  | cons s rest =>
    cases rest with
    | nil =>
      intro c cs h
      have hs := hgood s (List.mem_cons_self s [])
      refine hs.2 c ?_
      rw [show joinSegs [s] = s from rfl] at h
      rw [h]
      exact List.mem_cons_self c cs
    | cons t rest2 =>
      intro c cs h
      have hs := hgood s (List.mem_cons_self s (t :: rest2))
      rw [show joinSegs (s :: t :: rest2) = s ++ '/' :: joinSegs (t :: rest2) from rfl] at h
      cases hsc : s with
      | nil => exact absurd hsc hs.1
      | cons a s2 =>
        rw [hsc] at h
        simp only [List.cons_append, List.cons.injEq] at h
        refine h.1 ▸ hs.2 a ?_
        rw [hsc]
        exact List.mem_cons_self a s2

theorem noDupSlash_append_noslash (s : List Char) (hs : ∀ a ∈ s, a ≠ '/') :
    ∀ t, noDupSlash t = true → noDupSlash (s ++ t) = true := by
  induction s with
  | nil =>
    intro t ht
    simpa using ht
  | cons a s2 ih =>
    intro t ht
    have ha : a ≠ '/' := hs a (List.mem_cons_self a s2)
    have h2 : noDupSlash (s2 ++ t) = true :=
      ih (fun b hb => hs b (List.mem_cons_of_mem a hb)) t ht
    rw [List.cons_append]
    exact noDupSlash_cons a (s2 ++ t) h2 (Or.inl ha)

theorem noDupSlash_joinSegs (segs : List (List Char)) (hgood : ∀ s ∈ segs, goodSeg s) :
    noDupSlash (joinSegs segs) = true := by
  induction segs with
  | nil => rfl
  | cons s rest ih =>
    cases rest with
    | nil =>
      have hs := hgood s (List.mem_cons_self s [])
      exact noDupSlash_of_noslash s hs.2
    | cons t rest2 =>
      have hs := hgood s (List.mem_cons_self s (t :: rest2))
      have hrest : ∀ u ∈ t :: rest2, goodSeg u :=
        fun u hu => hgood u (List.mem_cons_of_mem s hu)
      have hJ : noDupSlash (joinSegs (t :: rest2)) = true := ih hrest
      have hhead := joinSegs_head_ne (t :: rest2) hrest
      have hslash : noDupSlash ('/' :: joinSegs (t :: rest2)) = true :=
        noDupSlash_cons '/' _ hJ (Or.inr hhead)
      rw [show joinSegs (s :: t :: rest2) = s ++ '/' :: joinSegs (t :: rest2) from rfl]
      exact noDupSlash_append_noslash s hs.2 _ hslash

theorem noDupSlash_pathClean (s : String) : noDupSlash (pathClean s).data = true := by
  unfold pathClean
  dsimp only []
  split
  · decide
  · have hgood : ∀ u ∈ (procSegs (isRooted s.data) [] (segsAux s.data [])).reverse, goodSeg u := by
      intro u hu
      refine procSegs_good (isRooted s.data) (segsAux s.data []) [] (by simp) ?_ u
        (List.mem_reverse.mp hu)
      exact segsAux_good s.data [] (by simp)
    split
    · split
      · decide
      · show noDupSlash ('/' :: joinSegs _) = true
        exact noDupSlash_cons '/' _ (noDupSlash_joinSegs _ hgood)
          (Or.inr (joinSegs_head_ne _ hgood))
    · split
      · decide
      · exact noDupSlash_joinSegs _ hgood

theorem noDupSlash_pathJoin (a b : String) : noDupSlash (pathJoin a b).data = true := by
  unfold pathJoin
  split
  · decide
  · split
    · exact noDupSlash_pathClean b
    · exact noDupSlash_pathClean (a ++ "/" ++ b)

/-! ## Prefix stripping and the rewritten path -/

theorem data_append (a b : String) : (a ++ b).data = a.data ++ b.data := by
  cases a
  cases b
  rfl

theorem mk_data (s : String) : String.mk s.data = s := by
  cases s
  rfl

theorem isPrefixOf_append_self (l m : List Char) : l.isPrefixOf (l ++ m) = true := by
  induction l with
  | nil => simp [List.isPrefixOf]
  | cons a t ih => simp [List.isPrefixOf, ih]

theorem trimPrefix_append (p r : String) : trimPrefix (p ++ r) p = r := by
  unfold trimPrefix
  rw [data_append, if_pos (isPrefixOf_append_self p.data r.data), List.drop_left, mk_data]

theorem rewriteRequest_urlPath (cfg : Config) (pm : ProxyParams) (req : Request)
    (rest : String) (h1 : pm.stripBasePath ≠ "") (h2 : pm.upstreamBasePath ≠ "")
    (h3 : req.urlPath = pm.stripBasePath ++ rest) :
    (rewriteRequest cfg pm req).urlPath = pathJoin pm.upstreamBasePath rest := by
  unfold rewriteRequest
  rw [setOutboundHost_urlPath]
  unfold preHostRewrite rewriteURL
  dsimp only []
  rw [applyCsrfStrip_urlPath, applyCustomHeaders_urlPath, applyCorsStrip_urlPath,
    addForwardingHeaders_urlPath, h3, if_pos h1, trimPrefix_append, if_pos h2]

/-! ## Composed effects of the full rewrite -/

theorem postForward_hValues (cfg : Config) (pm : ProxyParams) (r : Request) (k : String)
    (hk1 : k ≠ "Origin") (hk2 : k ∉ cfg.headers.map Prod.fst) (hk3 : k ≠ cfg.csrfHeader)
    (hk4 : k ≠ "Host") :
    hValues (setOutboundHost cfg.preserveHost pm.upstreamHost (rewriteURL pm
      (applyCsrfStrip cfg (applyCustomHeaders cfg (applyCorsStrip cfg r))))).header k
      = hValues r.header k := by
  rw [setOutboundHost_other _ _ _ _ hk4, rewriteURL_header, applyCsrfStrip_other _ _ _ hk3,
    applyCustomHeaders_other _ _ _ hk2, applyCorsStrip_other _ _ _ hk1]

theorem rewriteRequest_hValues_frame (cfg : Config) (pm : ProxyParams) (req : Request)
    (k : String) (hk1 : k ≠ "Origin") (hk2 : k ∉ cfg.headers.map Prod.fst)
    (hk3 : k ≠ cfg.csrfHeader) (hk4 : k ≠ "Host") (hk5 : k ≠ "X-Forwarded-For")
    (hk6 : k ≠ "X-Forwarded-Host") (hk7 : k ≠ "X-Forwarded-Proto") :
    hValues (rewriteRequest cfg pm req).header k = hValues req.header k := by
  unfold rewriteRequest preHostRewrite
  rw [postForward_hValues cfg pm _ k hk1 hk2 hk3 hk4,
    addForwardingHeaders_other _ _ _ hk5 hk6 hk7]

theorem rewriteRequest_csrfHeader_empty (cfg : Config) (pm : ProxyParams) (req : Request)
    (hc : cfg.enableCSRF = true) :
    hValues (rewriteRequest cfg pm req).header cfg.csrfHeader = [] := by
  unfold rewriteRequest preHostRewrite
  apply setOutboundHost_keeps_empty
  rw [rewriteURL_header]
  exact applyCsrfStrip_csrfHeader _ _ hc

theorem rewriteRequest_cookies_mem (cfg : Config) (pm : ProxyParams) (req : Request)
    (hc : cfg.enableCSRF = true) (ha : cfg.enableAuthorizationCookies = false) :
    ∀ c ∈ (rewriteRequest cfg pm req).cookies,
      c ∈ req.cookies ∧ c.1 ≠ requestURICookie ∧ c.1 ≠ cfg.csrfCookieName := by
  intro c hmem
  unfold rewriteRequest preHostRewrite at hmem
  rw [setOutboundHost_cookies, rewriteURL_cookies] at hmem
  have hres := applyCsrfStrip_cookies_mem cfg _ hc ha c hmem
  rw [applyCustomHeaders_cookies, applyCorsStrip_cookies, addForwardingHeaders_cookies] at hres
  exact hres

theorem preHostRewrite_hostHeader (cfg : Config) (pm : ProxyParams) (req : Request)
    (hh : "Host" ∉ cfg.headers.map Prod.fst) (hch : cfg.csrfHeader ≠ "Host") :
    hValues (preHostRewrite cfg pm req).header "Host" = hValues req.header "Host" := by
  unfold preHostRewrite
  rw [rewriteURL_header, applyCsrfStrip_other _ _ _ (fun he => hch he.symm),
    applyCustomHeaders_other _ _ _ hh, applyCorsStrip_other _ _ _ (by decide),
    addForwardingHeaders_other _ _ _ (by decide) (by decide) (by decide)]

theorem setOutboundHost_cases (p : Bool) (u : String) (req : Request) :
    (hGet req.header "Host" ≠ "" →
      (setOutboundHost p u req).host = hGet req.header "Host"
      ∧ hValues (setOutboundHost p u req).header "Host" = [])
    ∧ (hGet req.header "Host" = "" → p = false → (setOutboundHost p u req).host = u)
    ∧ (hGet req.header "Host" = "" → p = true → (setOutboundHost p u req).host = req.host) := by
  refine ⟨fun hv => ?_, fun hv hp => ?_, fun hv hp => ?_⟩
  · unfold setOutboundHost
    rw [if_pos hv]
    exact ⟨rfl, hValues_hDel_self _ _⟩
  · unfold setOutboundHost
    rw [if_neg (fun hne => hne hv), if_pos (by simp [hp])]
  · unfold setOutboundHost
    rw [if_neg (fun hne => hne hv), if_neg (by simp [hp])]

/-! ## The default-deny provisioning computation -/

theorem computeAddDefaultDeny_stays_false (cfg : Config) (l : List Resource) :
    l.foldl (fun b x => if x.url = allRoutes ∧ cfg.enableDefaultDeny then false else b)
      false = false := by
  induction l with
  | nil => rfl
  | cons a t ih =>
    simp only [List.foldl_cons, ite_self]
    exact ih

theorem computeAddDefaultDeny_false_of_mem (cfg : Config)
    (hd : cfg.enableDefaultDeny = true) (x : Resource) (hx : x ∈ cfg.resources)
    (hurl : x.url = allRoutes) : computeAddDefaultDeny cfg = false := by
  unfold computeAddDefaultDeny
  have aux : ∀ (l : List Resource) (b : Bool), (∃ y ∈ l, y.url = allRoutes) →
      l.foldl (fun b x => if x.url = allRoutes ∧ cfg.enableDefaultDeny then false else b)
        b = false := by
    intro l
    induction l with
    | nil =>
      intro b hex
      simp at hex
    | cons a t ih =>
      intro b hex
      simp only [List.foldl_cons]
      rcases hex with ⟨y, hy, hyurl⟩
      rcases List.mem_cons.mp hy with h | h
      · subst h
        rw [if_pos ⟨hyurl, hd⟩]
        exact computeAddDefaultDeny_stays_false cfg t
      · exact ih _ ⟨y, h, hyurl⟩
  exact aux cfg.resources cfg.enableDefaultDeny ⟨x, hx, hurl⟩

theorem computeAddDefaultDeny_of_forall (cfg : Config)
    (h : ∀ x ∈ cfg.resources, x.url ≠ allRoutes) :
    computeAddDefaultDeny cfg = cfg.enableDefaultDeny := by
  unfold computeAddDefaultDeny
  have aux : ∀ (l : List Resource) (b : Bool), (∀ x ∈ l, x.url ≠ allRoutes) →
      l.foldl (fun b x => if x.url = allRoutes ∧ cfg.enableDefaultDeny then false else b)
        b = b := by
    intro l
    induction l with
    | nil =>
      intro b _
      rfl
    | cons a t ih =>
      intro b hall
      simp only [List.foldl_cons]
      rw [if_neg (fun hc => hall a (List.mem_cons_self a t) hc.1)]
      exact ih b (fun x hx => hall x (List.mem_cons_of_mem a hx))
  exact aux cfg.resources cfg.enableDefaultDeny h

/-! ## Concrete sample inputs -/

/-- A resource mirroring the e2e test setup: `/fake` stripped and routed to
an upstream with base path `/apitls`. -/
def resPlain : Resource :=
  { url := "/fake", methods := ["GET"], whiteListed := false,
    upstream := "https://upstream.svc:8080/apitls", stripBasePath := "/fake",
    enableCSRF := false }

/-- A whitelisted resource. -/
def resWhite : Resource :=
  { url := "/open", methods := ["GET"], whiteListed := true, upstream := "",
    stripBasePath := "", enableCSRF := false }

/-- A user-declared catch-all resource. -/
def resStar : Resource :=
  { url := "/*", methods := ["GET"], whiteListed := false, upstream := "",
    stripBasePath := "", enableCSRF := false }

/-- The proxy parameters `proxyMiddleware` derives for `resPlain`. -/
def pmSample : ProxyParams :=
  { upstreamHost := "upstream.svc:8080", upstreamScheme := "https",
    upstreamBasePath := "/apitls", stripBasePath := "/fake" }

/-- A configuration with CSRF enabled and no custom headers. -/
def cfgSample : Config :=
  { enableDefaultDeny := false, enableDefaultNotFound := false, enableCSRF := true,
    enableAuthorizationCookies := false, preserveHost := false,
    csrfHeader := "X-CSRF-Token", csrfCookieName := "kc-csrf", corsOrigins := [],
    headers := [], resources := [resPlain] }

/-- Default deny on, default-not-found off, with a user-declared `/*`. -/
def cfgStarDeny : Config :=
  { cfgSample with enableDefaultDeny := true, resources := [resStar] }

/-- Default deny on, default-not-found off, no `/*` resource. -/
def cfgDenyNoStar : Config :=
  { cfgSample with enableDefaultDeny := true, resources := [resPlain] }

/-- A request whose chain denied access. -/
def reqDenied : Request :=
  { header := [("Accept", ["text/html"])], host := "gatekeeper.example",
    urlScheme := "http", urlHost := "gatekeeper.example", urlPath := "/fake/foo",
    remoteAddr := "10.0.0.1:4000", peerAddr := "10.0.0.1:4000", cookies := [],
    scope := some { accessDenied := true } }

/-- A request that never went through a scope-creating middleware. -/
def reqNoScope : Request :=
  { reqDenied with scope := none }

/-- A request carrying an explicit `Host` header and an allowing scope. -/
def reqHostHdr : Request :=
  { reqDenied with
    header := [("Host", ["override.example"])]
    scope := some { accessDenied := false } }

/-- An upgraded (WebSocket-style) request with an allowing scope. -/
def reqUpgrade : Request :=
  { reqDenied with
    header := [("Connection", ["keep-alive, upgrade"]), ("Upgrade", ["websocket"])]
    scope := some { accessDenied := false } }

/-- A `unix:///tmp/upstream.sock` upstream URL as `url.Parse` yields it:
empty host, socket path in the path component. -/
def upstreamUnix : UrlParts :=
  { scheme := "unix", host := "", path := "/tmp/upstream.sock" }

/-! ## The claims -/

/-- C1: when the middleware chain left an `AccessDenied` scope on the
request, `proxyMiddleware` returns at once: the outcome is `denied` with
the request unrewritten and the pooled upstream client is not invoked. -/
theorem claim1_access_denied_no_upstream (cfg : Config) (pm : ProxyParams) (ok : Bool)
    (req : Request) (sc : RequestScope) (hs : req.scope = some sc)
    (hd : sc.accessDenied = true) :
    proxyHandler cfg pm ok req = ProxyResult.denied req
    ∧ invokesUpstream (proxyHandler cfg pm ok req) = false := by
  have h : proxyHandler cfg pm ok req = ProxyResult.denied req := by
    unfold proxyHandler
    rw [hs]
    simp [hd]
  exact ⟨h, by rw [h]; rfl⟩

/-- Witness for C1 at a concrete denied request. -/
theorem claim1_witness :
    proxyHandler cfgSample pmSample true reqDenied = ProxyResult.denied reqDenied
    ∧ invokesUpstream (proxyHandler cfgSample pmSample true reqDenied) = false :=
  claim1_access_denied_no_upstream cfgSample pmSample true reqDenied
    { accessDenied := true } rfl rfl

/-- C2: the middleware chain composed for a non-whitelisted resource is
exactly Proxy, Authentication, Admission, IdentityHeaders,
CSRFSkipResource, CSRFProtect, CSRFHeader (outermost first); a whitelisted
resource gets the Proxy middleware only. -/
theorem claim2_middleware_chain (x : Resource) :
    (x.whiteListed = false →
      chainFor x = [Middleware.proxy, Middleware.authentication, Middleware.admission,
        Middleware.identityHeaders, Middleware.csrfSkipResource, Middleware.csrfProtect,
        Middleware.csrfHeader])
    ∧ (x.whiteListed = true → chainFor x = [Middleware.proxy]) := by
  constructor <;> intro h <;> simp [chainFor, h]

/-- Witness for C2 at a protected and a whitelisted resource. -/
theorem claim2_witness :
    chainFor resPlain = [Middleware.proxy, Middleware.authentication, Middleware.admission,
      Middleware.identityHeaders, Middleware.csrfSkipResource, Middleware.csrfProtect,
      Middleware.csrfHeader]
    ∧ chainFor resWhite = [Middleware.proxy] :=
  ⟨(claim2_middleware_chain resPlain).1 rfl, (claim2_middleware_chain resWhite).2 rfl⟩

/-- C4: when the matched resource strips base path `p` and the effective
upstream URL carries base path `b`, an inbound path `p ++ rest` is
forwarded with upstream path `path.Join b rest`, and the joined path never
contains duplicate slashes. -/
theorem claim4_strip_and_join (cfg : Config) (pm : ProxyParams) (req : Request)
    (rest : String) (h1 : pm.stripBasePath ≠ "") (h2 : pm.upstreamBasePath ≠ "")
    (h3 : req.urlPath = pm.stripBasePath ++ rest) :
    (rewriteRequest cfg pm req).urlPath = pathJoin pm.upstreamBasePath rest
    ∧ noDupSlash (rewriteRequest cfg pm req).urlPath.data = true := by
  have h := rewriteRequest_urlPath cfg pm req rest h1 h2 h3
  refine ⟨h, ?_⟩
  rw [h]
  exact noDupSlash_pathJoin _ _

/-- Witness for C4: `/fake/foo` with `StripBasePath=/fake` and upstream
base `/apitls` forwards to `/apitls/foo`. -/
theorem claim4_witness :
    (rewriteRequest cfgSample pmSample reqNoScope).urlPath = "/apitls/foo" := by
  rw [(claim4_strip_and_join cfgSample pmSample reqNoScope "/foo" (by decide) (by decide)
    (by decide)).1]
  decide

/-- C7: for a `unix` upstream URL the proxy factory installs a Unix-socket
dialer bound to `host+path` and normalises the URL to an empty path, the
`domain-sock` host marker and the insecure (`http`) scheme. -/
theorem claim7_unix_socket (u : UrlParts) (h : u.scheme = "unix") :
    (createStdProxy u).dialer = Dialer.unixSocket (u.host ++ u.path)
    ∧ (createStdProxy u).endpoint.path = ""
    ∧ (createStdProxy u).endpoint.host = "domain-sock"
    ∧ (createStdProxy u).endpoint.scheme = unsecureScheme
    ∧ unsecureScheme = "http" := by
  unfold createStdProxy
  rw [if_pos h]
  exact ⟨rfl, rfl, rfl, rfl, rfl⟩

/-- Witness for C7 at `unix:///tmp/upstream.sock`. -/
theorem claim7_witness :
    (createStdProxy upstreamUnix).dialer
      = Dialer.unixSocket (upstreamUnix.host ++ upstreamUnix.path)
    ∧ (createStdProxy upstreamUnix).endpoint.path = ""
    ∧ (createStdProxy upstreamUnix).endpoint.host = "domain-sock"
    ∧ (createStdProxy upstreamUnix).endpoint.scheme = unsecureScheme
    ∧ unsecureScheme = "http" :=
  claim7_unix_socket upstreamUnix rfl

/-- C10: a request carrying no `RequestScope` is never treated as denied:
the proxy performs the rewriting, and (when the request is not an upgraded
connection) hands the rewritten request to the pooled upstream client. -/
theorem claim10_no_scope_forwards (cfg : Config) (pm : ProxyParams) (ok : Bool)
    (req : Request) (hs : req.scope = none) :
    (∀ r, proxyHandler cfg pm ok req ≠ ProxyResult.denied r)
    ∧ (isUpgradedConnection (rewriteRequest cfg pm req) = false →
      proxyHandler cfg pm ok req = ProxyResult.forwarded (rewriteRequest cfg pm req)) := by
  have hph : proxyHandler cfg pm ok req = forwardPhase cfg pm ok req := by
    unfold proxyHandler
    rw [hs]
  constructor
  · intro r
    rw [hph]
    unfold forwardPhase
    dsimp only []
    split
    · split <;> simp
    · simp
  · intro hup
    rw [hph]
    unfold forwardPhase
    dsimp only []
    rw [if_neg (by simp [hup])]

/-- Witness for C10 at a scope-free request. -/
theorem claim10_witness :
    proxyHandler cfgSample pmSample true reqNoScope
      = ProxyResult.forwarded (rewriteRequest cfgSample pmSample reqNoScope) :=
  (claim10_no_scope_forwards cfgSample pmSample true reqNoScope rfl).2 (by decide)

/-- C3, counterexample: with `EnableDefaultDeny` on, `EnableDefaultNotFound`
off and a user-declared `"/*"` resource, the provisioning step does install
an unauthenticated catch-all handler (the `proxyMiddleware(nil)` route of
line 142), contradicting the claim that none is installed in that
situation. -/
theorem claim3_counterexample :
    (provisionRoutes cfgStarDeny).catchAll = some CatchAllInstall.openProxy
    ∧ cfgStarDeny.enableDefaultDeny = true
    ∧ resStar ∈ cfgStarDeny.resources ∧ resStar.url = allRoutes := by
  decide

/-- C3 (amended): when a `"/*"` resource is declared and `EnableDefaultDeny`
is on, no synthetic default-deny resource is appended; with
`EnableDefaultNotFound` also on no catch-all handler is installed (the
declared resource is the catch-all), while with `EnableDefaultNotFound` off
the unauthenticated pass-through catch-all is additionally installed
alongside the declared resource.  When `EnableDefaultDeny` is on,
`EnableDefaultNotFound` is off and no `"/*"` resource exists, the synthetic
`{URL: "/*", Methods: all}` resource is appended and no extra catch-all
handler is installed. -/
theorem claim3_default_deny_provisioning (cfg : Config) :
    (cfg.enableDefaultDeny = true → ∀ x ∈ cfg.resources, x.url = allRoutes →
      (provisionRoutes cfg).resources = cfg.resources
      ∧ (cfg.enableDefaultNotFound = true → (provisionRoutes cfg).catchAll = none)
      ∧ (cfg.enableDefaultNotFound = false →
        (provisionRoutes cfg).catchAll = some CatchAllInstall.openProxy))
    ∧ (cfg.enableDefaultDeny = true → cfg.enableDefaultNotFound = false →
      (∀ x ∈ cfg.resources, x.url ≠ allRoutes) →
      (provisionRoutes cfg).resources = cfg.resources ++ [defaultDenyResource]
      ∧ (provisionRoutes cfg).catchAll = none) := by
  constructor
  · intro hd x hx hurl
    have hfalse := computeAddDefaultDeny_false_of_mem cfg hd x hx hurl
    unfold provisionRoutes
    rw [if_neg (by simp [hfalse])]
    refine ⟨?_, fun hn => ?_, fun hn => ?_⟩
    · split
      · split <;> rfl
      · rfl
    · rw [if_pos hn, if_pos (List.any_eq_true.mpr ⟨x, hx, by simp [hurl]⟩)]
    · rw [if_neg (by simp [hn])]
  · intro hd hn hall
    have heq := computeAddDefaultDeny_of_forall cfg hall
    unfold provisionRoutes
    rw [if_pos (by rw [heq, hd]), if_neg (by simp [hn])]
    exact ⟨rfl, rfl⟩

/-- Witness for the amended C3: default deny with no declared `"/*"`
appends the synthetic resource. -/
theorem claim3_witness :
    (provisionRoutes cfgDenyNoStar).resources
      = cfgDenyNoStar.resources ++ [defaultDenyResource]
    ∧ (provisionRoutes cfgDenyNoStar).catchAll = none :=
  (claim3_default_deny_provisioning cfgDenyNoStar).2 rfl rfl (by decide)

/-- C5: provided the operator's static headers and the CSRF header name do
not name the forwarding headers (the configuration applies those rules
after step 1, by design), the forwarded request's `X-Forwarded-For` is the
inbound value list extended by the client IP as its last element,
`X-Forwarded-Host` is the inbound `Host`, and `X-Forwarded-Proto` keeps
its inbound value, else the upstream scheme. -/
theorem claim5_forwarded_headers (cfg : Config) (pm : ProxyParams) (req : Request)
    (hf1 : "X-Forwarded-For" ∉ cfg.headers.map Prod.fst)
    (hf2 : "X-Forwarded-Host" ∉ cfg.headers.map Prod.fst)
    (hf3 : "X-Forwarded-Proto" ∉ cfg.headers.map Prod.fst)
    (hc1 : cfg.csrfHeader ≠ "X-Forwarded-For")
    (hc2 : cfg.csrfHeader ≠ "X-Forwarded-Host")
    (hc3 : cfg.csrfHeader ≠ "X-Forwarded-Proto") :
    hValues (rewriteRequest cfg pm req).header "X-Forwarded-For"
      = hValues req.header "X-Forwarded-For" ++ [realIP req]
    ∧ hValues (rewriteRequest cfg pm req).header "X-Forwarded-Host" = [req.host]
    ∧ hValues (rewriteRequest cfg pm req).header "X-Forwarded-Proto"
      = (if hGet req.header "X-Forwarded-Proto" ≠ ""
         then [hGet req.header "X-Forwarded-Proto"] else [pm.upstreamScheme]) := by
  refine ⟨?_, ?_, ?_⟩
  · unfold rewriteRequest preHostRewrite
    rw [postForward_hValues cfg pm _ _ (by decide) hf1 (Ne.symm hc1) (by decide),
      addForwardingHeaders_xff]
  · unfold rewriteRequest preHostRewrite
    rw [postForward_hValues cfg pm _ _ (by decide) hf2 (Ne.symm hc2) (by decide),
      addForwardingHeaders_xfh]
  · unfold rewriteRequest preHostRewrite
    rw [postForward_hValues cfg pm _ _ (by decide) hf3 (Ne.symm hc3) (by decide),
      addForwardingHeaders_xfp]

/-- Witness for C5 at a concrete request and CSRF-enabled configuration. -/
theorem claim5_witness :
    hValues (rewriteRequest cfgSample pmSample reqNoScope).header "X-Forwarded-For"
      = hValues reqNoScope.header "X-Forwarded-For" ++ [realIP reqNoScope]
    ∧ hValues (rewriteRequest cfgSample pmSample reqNoScope).header "X-Forwarded-Host"
      = [reqNoScope.host]
    ∧ hValues (rewriteRequest cfgSample pmSample reqNoScope).header "X-Forwarded-Proto"
      = (if hGet reqNoScope.header "X-Forwarded-Proto" ≠ ""
         then [hGet reqNoScope.header "X-Forwarded-Proto"]
         else [pmSample.upstreamScheme]) :=
  claim5_forwarded_headers cfgSample pmSample reqNoScope (by decide) (by decide)
    (by decide) (by decide) (by decide) (by decide)

/-- C6: provided the operator's static headers and the CSRF header name do
not name `Host`, the outbound `Host` is the request's explicit `Host`
header when present (which is then removed from the header map), else the
upstream host when `PreserveHost` is off, else the inbound `Host`. -/
theorem claim6_outbound_host (cfg : Config) (pm : ProxyParams) (req : Request)
    (hh : "Host" ∉ cfg.headers.map Prod.fst) (hch : cfg.csrfHeader ≠ "Host") :
    (hGet req.header "Host" ≠ "" →
      (rewriteRequest cfg pm req).host = hGet req.header "Host"
      ∧ hValues (rewriteRequest cfg pm req).header "Host" = [])
    ∧ (hGet req.header "Host" = "" → cfg.preserveHost = false →
      (rewriteRequest cfg pm req).host = pm.upstreamHost)
    ∧ (hGet req.header "Host" = "" → cfg.preserveHost = true →
      (rewriteRequest cfg pm req).host = req.host) := by
  have hHostHdr : hGet (preHostRewrite cfg pm req).header "Host"
      = hGet req.header "Host" := by
    rw [hGet_eq_headD, hGet_eq_headD, preHostRewrite_hostHeader cfg pm req hh hch]
  have hcases := setOutboundHost_cases cfg.preserveHost pm.upstreamHost
    (preHostRewrite cfg pm req)
  refine ⟨fun hv => ?_, fun hv hp => ?_, fun hv hp => ?_⟩
  · have h := hcases.1 (by rw [hHostHdr]; exact hv)
    exact ⟨h.1.trans hHostHdr, h.2⟩
  · exact hcases.2.1 (by rw [hHostHdr]; exact hv) hp
  · have h := hcases.2.2 (by rw [hHostHdr]; exact hv) hp
    rw [show (rewriteRequest cfg pm req).host
      = (setOutboundHost cfg.preserveHost pm.upstreamHost (preHostRewrite cfg pm req)).host
      from rfl, h, preHostRewrite_host]

/-- Witness for C6 at a request carrying an explicit `Host` header. -/
theorem claim6_witness :
    (rewriteRequest cfgSample pmSample reqHostHdr).host = hGet reqHostHdr.header "Host"
    ∧ hValues (rewriteRequest cfgSample pmSample reqHostHdr).header "Host" = [] :=
  (claim6_outbound_host cfgSample pmSample reqHostHdr (by decide) (by decide)).1
    (by decide)

/-- C8: an upgraded connection that is not access-denied never reaches the
pooled upstream client: on a successful upgrade the outcome is the tunnel,
and on a failed upgrade the middleware responds 500. -/
theorem claim8_upgrade_path (cfg : Config) (pm : ProxyParams) (ok : Bool) (req : Request)
    (hnd : notDenied req = true)
    (hup : isUpgradedConnection (rewriteRequest cfg pm req) = true) :
    invokesUpstream (proxyHandler cfg pm ok req) = false
    ∧ (ok = true →
      proxyHandler cfg pm ok req = ProxyResult.upgraded (rewriteRequest cfg pm req))
    ∧ (ok = false →
      proxyHandler cfg pm ok req = ProxyResult.errorResp 500 (rewriteRequest cfg pm req)) := by
  have hph : proxyHandler cfg pm ok req = forwardPhase cfg pm ok req := by
    unfold proxyHandler notDenied at *
    cases hsc : req.scope with
    | none => rfl
    | some sc =>
      rw [hsc] at hnd
      have hfalse : sc.accessDenied = false := by simpa using hnd
      simp [hfalse]
  refine ⟨?_, fun hok => ?_, fun hok => ?_⟩ <;>
    rw [hph] <;> unfold forwardPhase <;> dsimp only [] <;> rw [if_pos hup]
  · split <;> rfl
  · rw [if_pos hok]
  · rw [if_neg (by simp [hok])]

/-- Witness for C8 at a concrete upgraded request whose upgrade attempt
fails. -/
theorem claim8_witness :
    invokesUpstream (proxyHandler cfgSample pmSample false reqUpgrade) = false
    ∧ proxyHandler cfgSample pmSample false reqUpgrade
      = ProxyResult.errorResp 500 (rewriteRequest cfgSample pmSample reqUpgrade) := by
  have h := claim8_upgrade_path cfgSample pmSample false reqUpgrade (by decide) (by decide)
  exact ⟨h.1, h.2.2 rfl⟩

/-- C9: with CSRF enabled the forwarded request carries no value for the
configured CSRF header; unless authorization-cookie pass-through is on,
every surviving cookie is an inbound cookie that is neither the CSRF
cookie nor the request-URI cookie; and any header not named by the
rewriting rules keeps its inbound values. -/
theorem claim9_csrf_and_frame (cfg : Config) (pm : ProxyParams) (req : Request)
    (k : String) (hc : cfg.enableCSRF = true) :
    hValues (rewriteRequest cfg pm req).header cfg.csrfHeader = []
    ∧ (cfg.enableAuthorizationCookies = false →
      ∀ c ∈ (rewriteRequest cfg pm req).cookies,
        c ∈ req.cookies ∧ c.1 ≠ requestURICookie ∧ c.1 ≠ cfg.csrfCookieName)
    ∧ (k ≠ "X-Forwarded-For" → k ≠ "X-Forwarded-Host" → k ≠ "X-Forwarded-Proto" →
      k ≠ "Origin" → k ∉ cfg.headers.map Prod.fst → k ≠ cfg.csrfHeader → k ≠ "Host" →
      hValues (rewriteRequest cfg pm req).header k = hValues req.header k) :=
  ⟨rewriteRequest_csrfHeader_empty cfg pm req hc,
   fun ha => rewriteRequest_cookies_mem cfg pm req hc ha,
   fun h5 h6 h7 h1 h2 h3 h4 =>
    rewriteRequest_hValues_frame cfg pm req k h1 h2 h3 h4 h5 h6 h7⟩

/-- Witness for C9: the CSRF header is gone and the untouched `Accept`
header survives verbatim. -/
theorem claim9_witness :
    hValues (rewriteRequest cfgSample pmSample reqNoScope).header cfgSample.csrfHeader = []
    ∧ hValues (rewriteRequest cfgSample pmSample reqNoScope).header "Accept"
      = hValues reqNoScope.header "Accept" := by
  have h := claim9_csrf_and_frame cfgSample pmSample reqNoScope "Accept" rfl
  exact ⟨h.1, h.2.2 (by decide) (by decide) (by decide) (by decide) (by decide)
    (by decide) (by decide)⟩
